import Mathlib

/-!
# Verification of the osm2ultima generation engine

Shallow embedding of `src/tools/osm2ultima/osm2ultima.py` and
`src/tools/osm2ultima/osm_shape_mapping.py`.

Conventions of the embedding:
* Python integer floor division `//` and modulo `%` on a positive divisor are
  Lean's `/` and `%` on `Int` (Euclidean division, which agrees with floor
  division whenever the divisor is positive) or on `Nat` where the dividend is
  known non-negative.
* Python float arithmetic in the coordinate transform is modelled by exact
  rationals (`ℚ`); the properties proved about it only involve points where
  the float computation is exact (`r/r`, `0/r`, `1 - x` for `x ∈ {0, 1/2, 1}`,
  and products with small integers), so the rational model is faithful there.
* Python dicts are association lists in insertion order; `dict.get` is
  `List.find?` on the key.
* `random.choice(candidates)` picks some element of `candidates`; placements
  record the candidate list / role instead of the randomly chosen member, and
  `random.random()` / `random.uniform(a, b)` are modelled by an explicit
  stream `u : ℕ → ℚ` of unit-interval samples threaded through the
  computation, mirroring Python's single global Mersenne-Twister stream.
-/

namespace Osm2Ultima

/-! ## Integer ranges (Python `range(lo, hi)` over `Int`) -/

/-- Python `range(lo, hi)` as a list of integers. -/
def intRange (lo hi : Int) : List Int :=
  (List.range (hi - lo).toNat).map (fun (i : Nat) => lo + (i : Int))

/-- Python `range(lo, hi + 1)`, i.e. the inclusive range used by loops of the
form `for x in range(a, b + 1)`. -/
def intRangeIncl (lo hi : Int) : List Int := intRange lo (hi + 1)

theorem mem_intRange {lo hi a : Int} : a ∈ intRange lo hi ↔ lo ≤ a ∧ a < hi := by
  simp only [intRange, List.mem_map, List.mem_range]
  constructor
  · rintro ⟨i, hlt, rfl⟩
    omega
  · intro h
    exact ⟨(a - lo).toNat, by omega, by omega⟩

theorem mem_intRangeIncl {lo hi a : Int} : a ∈ intRangeIncl lo hi ↔ lo ≤ a ∧ a ≤ hi := by
  rw [intRangeIncl, mem_intRange]
  omega

/-! ## `UltimaObject` and the IREG record encoding

`UltimaObject` is the dataclass of `osm2ultima.py` (lines 44-53).  The method
`to_ireg_bytes` (lines 81-101) is, in the source text, indented into the body
of the `NPCProfile` dataclass, but its body reads `self.x`, `self.y`,
`self.shape`, `self.frame`, `self.lift` and `self.quality` -- the fields of
`UltimaObject` (which `NPCProfile` does not have), and both
`MapExporter.export_ireg` and the repository's own unit tests invoke it on
`UltimaObject` values.  The embedding therefore models the method body as a
function of an `UltimaObject`, which is the only reading under which the body
is executable at all.  Tile coordinates are the non-negative clamped outputs
of the coordinate transform, so `Nat` is used and `//`, `%`, `&`, `|`, `<<`
and `>>` are the `Nat` operations. -/

structure UltimaObject where
  shape : Nat
  frame : Nat := 0
  x : Nat := 0
  y : Nat := 0
  lift : Nat := 0
  quality : Nat := 0
  flags : Nat := 0
deriving DecidableEq

/-- `to_ireg_bytes` (osm2ultima.py lines 81-101): the simplified 10-byte IREG
record.  `buf = bytearray(10)` zero-initializes, then bytes 0-6 are assigned
and 7-9 are explicitly set to 0. -/
def to_ireg_bytes (o : UltimaObject) : List Nat :=
  let chunk_x := o.x / 16
  let chunk_y := o.y / 16
  let local_x := o.x % 16
  let local_y := o.y % 16
  [10,
   ((chunk_x % 16) <<< 4) ||| local_x,
   ((chunk_y % 16) <<< 4) ||| local_y,
   o.shape &&& 0xff,
   ((o.shape >>> 8) &&& 3) ||| (o.frame <<< 2),
   o.lift &&& 0x0f,
   o.quality &&& 0xff,
   0, 0, 0]

/-- C1: every placed object encodes to exactly 10 bytes; byte 0 is the
constant 10, byte 1 is `((x div 16) mod 16) <<< 4 ||| (x mod 16)`, byte 2 the
same for `y`, byte 3 is `shape &&& 0xFF`, byte 4 is
`((shape >>> 8) &&& 0x3) ||| (frame <<< 2)`, byte 5 is `lift &&& 0x0F`,
byte 6 is `quality &&& 0xFF`, and bytes 7-9 are 0; in particular an object at
tile (17, 33) has byte 1 = 0x11 and byte 2 = 0x21.  The final conjunct
evaluates the encoding body at the input of the repository's failing unit
test `test_to_ireg_bytes` (`UltimaObject(shape=100, x=32, y=48, lift=1)`):
this is the record the claim promises, while the shipped code instead raises
`AttributeError` there because the method is attached to `NPCProfile`. -/
theorem to_ireg_bytes_spec :
    (∀ o : UltimaObject,
      (to_ireg_bytes o).length = 10 ∧
      (to_ireg_bytes o).getD 0 0 = 10 ∧
      (to_ireg_bytes o).getD 1 0 = (((o.x / 16) % 16) <<< 4) ||| (o.x % 16) ∧
      (to_ireg_bytes o).getD 2 0 = (((o.y / 16) % 16) <<< 4) ||| (o.y % 16) ∧
      (to_ireg_bytes o).getD 3 0 = o.shape &&& 0xff ∧
      (to_ireg_bytes o).getD 4 0 = ((o.shape >>> 8) &&& 0x3) ||| (o.frame <<< 2) ∧
      (to_ireg_bytes o).getD 5 0 = o.lift &&& 0x0f ∧
      (to_ireg_bytes o).getD 6 0 = o.quality &&& 0xff ∧
      (to_ireg_bytes o).getD 7 0 = 0 ∧
      (to_ireg_bytes o).getD 8 0 = 0 ∧
      (to_ireg_bytes o).getD 9 0 = 0) ∧
    (to_ireg_bytes { shape := 100, x := 17, y := 33 }).getD 1 0 = 0x11 ∧
    (to_ireg_bytes { shape := 100, x := 17, y := 33 }).getD 2 0 = 0x21 ∧
    to_ireg_bytes { shape := 100, x := 32, y := 48, lift := 1 } =
      [10, 0x20, 0x30, 100, 0, 1, 0, 0, 0, 0] := by
  refine ⟨fun o => ?_, by decide, by decide, by decide⟩
  simp [to_ireg_bytes]

/-! ## C2: width-aware line painting (`MapGenerator._draw_line_terrain`,
osm2ultima.py lines 913-938)

The inner double loop is
`for wx in range(-width // 2, width // 2 + 1)` (and the same for `wy`), with
Python floor division, followed by the world-bounds test
`0 <= tx < map_size[0] * 16 and 0 <= ty < map_size[1] * 16`.
`sizeX`/`sizeY` below are the world dimensions in tiles
(`map_size[0] * 16` and `map_size[1] * 16`). -/

/-- The offsets `range(-width // 2, width // 2 + 1)` of the painting loop.
Python `-width // 2` floor-divides the negated width, which for a positive
divisor is `Int` Euclidean division. -/
def line_offsets (width : Nat) : List Int :=
  intRange ((-(width : Int)) / 2) (((width / 2 : Nat) : Int) + 1)

/-- The set of tiles painted around one interpolated center `(cx, cy)`:
all offsets of `line_offsets` in both axes, clipped to world bounds. -/
def paint_square (cx cy : Int) (width sizeX sizeY : Nat) : List (Int × Int) :=
  (line_offsets width).flatMap (fun wx =>
    (line_offsets width).filterMap (fun wy =>
      let tx := cx + wx
      let ty := cy + wy
      if 0 ≤ tx ∧ tx < (sizeX : Int) ∧ 0 ≤ ty ∧ ty < (sizeY : Int) then
        some (tx, ty)
      else none))

/-- Modelled from the spec words, for comparison: the square of offsets
`(wx, wy)` with `wx, wy ∈ [-(width div 2), +(width div 2)]` (a square of side
`2*(width div 2)+1`), clipped to world bounds. -/
def spec_square (cx cy : Int) (width sizeX sizeY : Nat) : List (Int × Int) :=
  (intRangeIncl (-((width / 2 : Nat) : Int)) ((width / 2 : Nat) : Int)).flatMap (fun wx =>
    (intRangeIncl (-((width / 2 : Nat) : Int)) ((width / 2 : Nat) : Int)).filterMap (fun wy =>
      let tx := cx + wx
      let ty := cy + wy
      if 0 ≤ tx ∧ tx < (sizeX : Int) ∧ 0 ≤ ty ∧ ty < (sizeY : Int) then
        some (tx, ty)
      else none))

/-- `_draw_line_terrain` painted tiles: `dist = max |dx| |dy|` over the two
transformed endpoint tiles; if `dist == 0` only the start tile is painted
(with no bounds check); otherwise every interpolated center (the centers come
from the float interpolation `int(start + (i/dist) * (end - start))`, taken
here as a parameter) paints its `paint_square`. -/
def draw_line_tiles (s e : Int × Int) (centers : List (Int × Int))
    (width sizeX sizeY : Nat) : List (Int × Int) :=
  let dist := max (e.1 - s.1).natAbs (e.2 - s.2).natAbs
  if dist = 0 then [s]
  else centers.flatMap (fun c => paint_square c.1 c.2 width sizeX sizeY)

theorem mem_line_offsets {width : Nat} {d : Int} :
    d ∈ line_offsets width ↔
      -(((width + 1) / 2 : Nat) : Int) ≤ d ∧ d ≤ ((width / 2 : Nat) : Int) := by
  rw [line_offsets, mem_intRange]
  omega

/-- C2 counterexample: for width 1 (service roads, paths, the default
width) the code paints the 2×2 block of offsets `{-1, 0} × {-1, 0}`, so
tile (4, 4) is painted around center (5, 5), while the claimed square
`[-(1 div 2), +(1 div 2)] = {0}` contains only (5, 5); and for width 3
(primary/secondary roads) the code paints the 4×4 block of offsets
`{-2, ..., 1}²`, so tile (3, 3) is painted although the claimed square
stops at offset -1. -/
theorem paint_square_width_one_cex :
    ((4 : Int), (4 : Int)) ∈ paint_square 5 5 1 100 100 ∧
      ((4 : Int), (4 : Int)) ∉ spec_square 5 5 1 100 100 ∧
      paint_square 5 5 1 100 100 ≠ spec_square 5 5 1 100 100 ∧
      ((3 : Int), (3 : Int)) ∈ paint_square 5 5 3 100 100 ∧
      ((3 : Int), (3 : Int)) ∉ spec_square 5 5 3 100 100 := by
  refine ⟨by decide, by decide, by decide, by decide, by decide⟩

/-- C2 (amended): around each interpolated center the painted tiles are
exactly the square of offsets `(wx, wy)` with
`wx, wy ∈ [-((width+1) div 2), +(width div 2)]` — Python's floor division in
`range(-width // 2, width // 2 + 1)` makes the lower bound `-⌈width/2⌉`, so
the square has side `width + 1` and for odd widths extends one tile further
toward negative offsets — clipped to world bounds; when the two
transformed endpoints coincide (`dist == 0`), only the start tile is
painted; and when they differ, the painted set is exactly the union, in
interpolation order, of the per-center squares. -/
theorem paint_square_spec :
    (∀ (cx cy : Int) (width sizeX sizeY : Nat) (p : Int × Int),
      p ∈ paint_square cx cy width sizeX sizeY ↔
        (cx - (((width + 1) / 2 : Nat) : Int) ≤ p.1 ∧
         p.1 ≤ cx + ((width / 2 : Nat) : Int) ∧
         cy - (((width + 1) / 2 : Nat) : Int) ≤ p.2 ∧
         p.2 ≤ cy + ((width / 2 : Nat) : Int) ∧
         0 ≤ p.1 ∧ p.1 < (sizeX : Int) ∧ 0 ≤ p.2 ∧ p.2 < (sizeY : Int))) ∧
    (∀ (s : Int × Int) (centers : List (Int × Int)) (width sizeX sizeY : Nat),
      draw_line_tiles s s centers width sizeX sizeY = [s]) ∧
    (∀ (s e : Int × Int) (centers : List (Int × Int)) (width sizeX sizeY : Nat),
      s ≠ e →
      draw_line_tiles s e centers width sizeX sizeY =
        centers.flatMap (fun c => paint_square c.1 c.2 width sizeX sizeY)) := by
  refine ⟨?_, ?_, ?_⟩
  · intro cx cy width sizeX sizeY p
    simp only [paint_square, List.mem_flatMap, List.mem_filterMap, mem_line_offsets,
      Option.ite_none_right_eq_some, Option.some.injEq]
    constructor
    · rintro ⟨wx, hwx, wy, hwy, hb, rfl⟩
      dsimp only
      omega
    · rintro ⟨h1, h2, h3, h4, h5, h6, h7, h8⟩
      refine ⟨p.1 - cx, ⟨by omega, by omega⟩, p.2 - cy, ⟨by omega, by omega⟩,
        ⟨by omega, by omega, by omega, by omega⟩, ?_⟩
      exact Prod.ext (by dsimp only; omega) (by dsimp only; omega)
  · intro s centers width sizeX sizeY
    simp [draw_line_tiles]
  · intro s e centers width sizeX sizeY hne
    simp only [draw_line_tiles]
    rw [if_neg (fun h0 => hne (Prod.ext (by omega) (by omega)))]

/-- C2 witness: the non-degenerate branch of the theorem applied to the
concrete segment (0,0)-(3,0) with its four interpolated centers, and the
degenerate branch at the coincident endpoints (2,2)-(2,2). -/
theorem paint_square_spec_witness :
    draw_line_tiles (0, 0) (3, 0) [(0, 0), (1, 0), (2, 0), (3, 0)] 1 100 100 =
      ([((0 : Int), (0 : Int)), (1, 0), (2, 0), (3, 0)]).flatMap
        (fun c => paint_square c.1 c.2 1 100 100) ∧
    draw_line_tiles ((2 : Int), (2 : Int)) (2, 2) [(2, 2)] 1 100 100 = [(2, 2)] :=
  ⟨paint_square_spec.2.2 (0, 0) (3, 0) [(0, 0), (1, 0), (2, 0), (3, 0)] 1 100 100
      (by decide),
   paint_square_spec.2.1 (2, 2) [(2, 2)] 1 100 100⟩

/-! ## C5: `CoordinateTransformer` (osm_shape_mapping.py lines 504-556)

Python float arithmetic is modelled by exact rationals; the proved facts only
involve inputs where the float computation is exact (see the header note). -/

structure CoordinateTransformer where
  min_lon : ℚ
  min_lat : ℚ
  max_lon : ℚ
  max_lat : ℚ
  tiles_x : Nat
  tiles_y : Nat

/-- `__init__`: the bbox plus `ultima_size` in chunks; the map dimensions in
tiles are `chunks * 16`. -/
def mkTransformer (min_lon min_lat max_lon max_lat : ℚ)
    (ultima_size : Nat × Nat) : CoordinateTransformer :=
  { min_lon := min_lon, min_lat := min_lat, max_lon := max_lon, max_lat := max_lat,
    tiles_x := ultima_size.1 * 16, tiles_y := ultima_size.2 * 16 }

/-- Python `int(q)`: truncation toward zero. -/
def pytrunc (q : ℚ) : Int := if q < 0 then -⌊-q⌋ else ⌊q⌋

/-- `osm_to_ultima` (lines 524-544): normalize into [0,1] (midpoint 0.5 on a
non-positive span), flip the latitude axis, scale by the tile dimensions,
truncate, and clamp each axis to `[0, dim-1]`. -/
def osm_to_ultima (t : CoordinateTransformer) (lon lat : ℚ) : Int × Int :=
  let lon_range := t.max_lon - t.min_lon
  let lat_range := t.max_lat - t.min_lat
  let norm_x : ℚ := if 0 < lon_range then (lon - t.min_lon) / lon_range else 0.5
  let norm_y : ℚ := if 0 < lat_range then (lat - t.min_lat) / lat_range else 0.5
  let norm_y2 := 1 - norm_y
  let tile_x := pytrunc (norm_x * (t.tiles_x : ℚ))
  let tile_y := pytrunc (norm_y2 * (t.tiles_y : ℚ))
  (max 0 (min ((t.tiles_x : Int) - 1) tile_x),
   max 0 (min ((t.tiles_y : Int) - 1) tile_y))

theorem pytrunc_zero : pytrunc 0 = 0 := by
  simp [pytrunc]

theorem pytrunc_natCast (n : Nat) : pytrunc ((n : ℚ)) = (n : Int) := by
  rw [pytrunc, if_neg (not_lt.mpr (by positivity)), Int.floor_natCast]

theorem pytrunc_half_natCast (n : Nat) : pytrunc ((n : ℚ) / 2) = ((n / 2 : Nat) : Int) := by
  rw [pytrunc, if_neg (not_lt.mpr (by positivity))]
  rw [Int.floor_eq_iff]
  have h1 : (n / 2) * 2 ≤ n := Nat.div_mul_le_self n 2
  have h2 : n < (n / 2) * 2 + 2 := by omega
  constructor
  · have h3 : ((n / 2 : Nat) : ℚ) * 2 ≤ (n : ℚ) := by exact_mod_cast h1
    rw [Int.cast_natCast]
    linarith
  · have h3 : (n : ℚ) < ((n / 2 : Nat) : ℚ) * 2 + 2 := by exact_mod_cast h2
    rw [Int.cast_natCast]
    linarith

/-- C5: the coordinate transform is a pure function; `transform(minLon,
maxLat)` yields tileY = 0 (latitude axis flipped), `transform(minLon,
minLat)` yields tileY = H-1, every output is clamped to `[0, dim-1]` on each
axis, and a bounding box with zero span on an axis maps every point on that
axis to the midpoint tile `dim/2` without failing. -/
theorem osm_to_ultima_spec :
    (∀ (t : CoordinateTransformer) (lon lat : ℚ),
      0 ≤ (osm_to_ultima t lon lat).1 ∧ 0 ≤ (osm_to_ultima t lon lat).2 ∧
      (1 ≤ t.tiles_x → (osm_to_ultima t lon lat).1 ≤ (t.tiles_x : Int) - 1) ∧
      (1 ≤ t.tiles_y → (osm_to_ultima t lon lat).2 ≤ (t.tiles_y : Int) - 1)) ∧
    (∀ t : CoordinateTransformer, t.min_lat < t.max_lat →
      (osm_to_ultima t t.min_lon t.max_lat).2 = 0) ∧
    (∀ t : CoordinateTransformer, t.min_lat < t.max_lat → 1 ≤ t.tiles_y →
      (osm_to_ultima t t.min_lon t.min_lat).2 = (t.tiles_y : Int) - 1) ∧
    (∀ (t : CoordinateTransformer) (lon lat : ℚ), t.max_lat = t.min_lat →
      (osm_to_ultima t lon lat).2 = ((t.tiles_y / 2 : Nat) : Int)) ∧
    (∀ (t : CoordinateTransformer) (lon lat : ℚ), t.max_lon = t.min_lon →
      (osm_to_ultima t lon lat).1 = ((t.tiles_x / 2 : Nat) : Int)) := by
  refine ⟨?_, ?_, ?_, ?_, ?_⟩
  · intro t lon lat
    simp only [osm_to_ultima]
    omega
  · intro t h
    have hpos : (0 : ℚ) < t.max_lat - t.min_lat := sub_pos.mpr h
    simp only [osm_to_ultima, if_pos hpos, div_self (ne_of_gt hpos), sub_self,
      zero_mul, pytrunc_zero]
    omega
  · intro t h hy
    have hpos : (0 : ℚ) < t.max_lat - t.min_lat := sub_pos.mpr h
    simp only [osm_to_ultima, if_pos hpos, sub_self, zero_div, sub_zero,
      one_mul, pytrunc_natCast]
    omega
  · intro t lon lat h
    have hns : ¬ (0 : ℚ) < t.max_lat - t.min_lat := by rw [h]; simp
    have he : (1 - (0.5 : ℚ)) * (t.tiles_y : ℚ) = (t.tiles_y : ℚ) / 2 := by ring
    simp only [osm_to_ultima, if_neg hns, he, pytrunc_half_natCast]
    omega
  · intro t lon lat h
    have hns : ¬ (0 : ℚ) < t.max_lon - t.min_lon := by rw [h]; simp
    have he : (0.5 : ℚ) * (t.tiles_x : ℚ) = (t.tiles_x : ℚ) / 2 := by ring
    simp only [osm_to_ultima, if_neg hns, he, pytrunc_half_natCast]
    omega

/-- C5 witness: the theorem applied to the transformer of a concrete
1°×1° bounding box on a 2×2-chunk map (32×32 tiles), and to a transformer
whose bounding box has zero latitude span. -/
theorem osm_to_ultima_spec_witness :
    (osm_to_ultima (mkTransformer 0 0 1 1 (2, 2)) 0 1).2 = 0 ∧
    (osm_to_ultima (mkTransformer 0 0 1 1 (2, 2)) 0 0).2 = 31 ∧
    (osm_to_ultima (mkTransformer 0 5 1 5 (2, 2)) 0 7).2 = 16 ∧
    0 ≤ (osm_to_ultima (mkTransformer 0 0 1 1 (2, 2)) 9 9).1 := by
  refine ⟨osm_to_ultima_spec.2.1 _ (by norm_num [mkTransformer]), ?_, ?_, ?_⟩
  · have := osm_to_ultima_spec.2.2.1 (mkTransformer 0 0 1 1 (2, 2))
      (by norm_num [mkTransformer]) (by norm_num [mkTransformer])
    simpa [mkTransformer] using this
  · have := osm_to_ultima_spec.2.2.2.1 (mkTransformer 0 5 1 5 (2, 2)) 0 7
      (by norm_num [mkTransformer])
    simpa [mkTransformer] using this
  · exact (osm_to_ultima_spec.1 (mkTransformer 0 0 1 1 (2, 2)) 9 9).1

/-! ## C7: terrain classification (`get_terrain_shape`,
osm_shape_mapping.py lines 379-415, with the mapping tables of the same
file).  Tag sets and the mapping dicts are association lists; `dict.get` is
`List.find?` on the key. -/

/-- `dict.get(key)` on a string-keyed dict. -/
def dictGet (d : List (String × String)) (k : String) : Option String :=
  (d.find? (fun p => p.1 == k)).map (fun p => p.2)

/-- `TERRAIN_SHAPES` (lines 14-38). -/
def TERRAIN_SHAPES : List (String × List Nat) :=
  [("grass", [4, 31, 32, 33, 34, 35, 36, 37, 38, 39, 40, 41, 42, 43, 44, 45, 146, 147, 148]),
   ("sand", [10, 111]),
   ("water", [8]),
   ("swamp", [22, 113, 114, 115, 116, 117]),
   ("dirt", [23]),
   ("mud", [149]),
   ("rocky_grass", [46]),
   ("sandy_grass", [28, 118, 119, 120, 121, 122, 123, 124, 125, 126, 127, 128, 129, 130, 131, 132, 133]),
   ("muddy_bank", [29, 85, 86, 87, 88, 89, 90, 91, 92, 93, 94, 95, 96, 97, 98, 99, 100, 101, 102, 103, 104, 105, 106, 107, 108, 109]),
   ("grassy_mud", [134, 135, 136, 137, 138, 139, 140, 141, 142, 143, 144, 145]),
   ("cave_floor", [5, 49, 50, 51, 52, 53, 54, 55, 56, 57, 58, 59, 60, 61, 62, 63]),
   ("sidewalk", [1]),
   ("cobblestone", [24]),
   ("planking", [17]),
   ("tile", [18]),
   ("stone_floor", [21]),
   ("carpet", [0, 27, 47, 186, 187, 190, 269, 294, 413]),
   ("floor", [189, 193, 367, 368, 369, 370, 441]),
   ("ford", [14, 15, 84, 112]),
   ("rut", [16, 25])]

/-- `TERRAIN_SHAPES.get(k, dflt)`. -/
def terrainShapesGet (k : String) (dflt : List Nat) : List Nat :=
  ((TERRAIN_SHAPES.find? (fun p => p.1 == k)).map (fun p => p.2)).getD dflt

/-- `TERRAIN_SHAPES["grass"]`. -/
def GRASS_SHAPES : List Nat := (terrainShapesGet "grass" [])

/-- `TERRAIN_SHAPES["cobblestone"]`. -/
def COBBLESTONE_SHAPES : List Nat := (terrainShapesGet "cobblestone" [])

/-- `TERRAIN_SHAPES["water"]`. -/
def WATER_SHAPES : List Nat := (terrainShapesGet "water" [])

/-- `OSM_LANDUSE_TO_TERRAIN` (lines 44-74). -/
def OSM_LANDUSE_TO_TERRAIN : List (String × String) :=
  [("forest", "grass"), ("grass", "grass"), ("meadow", "grass"),
   ("farmland", "grass"), ("orchard", "grass"), ("vineyard", "grass"),
   ("allotments", "dirt"), ("beach", "sand"), ("sand", "sand"),
   ("wetland", "swamp"), ("marsh", "swamp"), ("mud", "mud"),
   ("rock", "rocky_grass"), ("bare_rock", "rocky_grass"),
   ("residential", "grass"), ("commercial", "cobblestone"),
   ("industrial", "cobblestone"), ("retail", "cobblestone"),
   ("construction", "dirt"), ("brownfield", "dirt"), ("landfill", "dirt"),
   ("cemetery", "grass"), ("military", "grass"), ("quarry", "rocky_grass")]

/-- `OSM_NATURAL_TO_TERRAIN` (lines 76-88). -/
def OSM_NATURAL_TO_TERRAIN : List (String × String) :=
  [("water", "water"), ("wetland", "swamp"), ("beach", "sand"),
   ("sand", "sand"), ("mud", "mud"), ("bare_rock", "rocky_grass"),
   ("scree", "rocky_grass"), ("grassland", "grass"), ("heath", "grass"),
   ("scrub", "grass"), ("wood", "grass")]

/-- `OSM_SURFACE_TO_TERRAIN` (lines 90-102). -/
def OSM_SURFACE_TO_TERRAIN : List (String × String) :=
  [("asphalt", "cobblestone"), ("concrete", "stone_floor"),
   ("paving_stones", "cobblestone"), ("cobblestone", "cobblestone"),
   ("gravel", "dirt"), ("unpaved", "dirt"), ("ground", "dirt"),
   ("grass", "grass"), ("sand", "sand"), ("wood", "planking"),
   ("metal", "tile")]

/-- `OSM_HIGHWAY_TO_TERRAIN` (lines 301-316). -/
def OSM_HIGHWAY_TO_TERRAIN : List (String × String) :=
  [("motorway", "cobblestone"), ("trunk", "cobblestone"),
   ("primary", "cobblestone"), ("secondary", "cobblestone"),
   ("tertiary", "cobblestone"), ("residential", "cobblestone"),
   ("service", "dirt"), ("track", "rut"), ("path", "dirt"),
   ("footway", "sidewalk"), ("pedestrian", "cobblestone"),
   ("cycleway", "dirt"), ("bridleway", "dirt"), ("steps", "stone_floor")]

/-- `OSM_WATERWAY_TO_TERRAIN` (lines 340-347). -/
def OSM_WATERWAY_TO_TERRAIN : List (String × String) :=
  [("river", "water"), ("stream", "water"), ("canal", "water"),
   ("drain", "water"), ("ditch", "muddy_bank"), ("dam", "stone_floor")]

/-- One category probe of `get_terrain_shape`: Python
`v = osm_tags.get(key)` followed by `if v and v in mapping`.  The truthiness
test `v and ...` makes an empty-string tag value fall through exactly like a
missing or unmapped one. -/
def catTerrain (tags : List (String × String)) (key : String)
    (mapping : List (String × String)) : Option String :=
  match dictGet tags key with
  | none => none
  | some v => if v ≠ "" then dictGet mapping v else none

/-- `get_terrain_shape` (lines 379-415): category precedence
landuse > natural > surface > highway > waterway, defaulting to grass. -/
def get_terrain_shape (tags : List (String × String)) : List Nat :=
  match catTerrain tags "landuse" OSM_LANDUSE_TO_TERRAIN with
  | some t => terrainShapesGet t GRASS_SHAPES
  | none =>
    match catTerrain tags "natural" OSM_NATURAL_TO_TERRAIN with
    | some t => terrainShapesGet t GRASS_SHAPES
    | none =>
      match catTerrain tags "surface" OSM_SURFACE_TO_TERRAIN with
      | some t => terrainShapesGet t GRASS_SHAPES
      | none =>
        match catTerrain tags "highway" OSM_HIGHWAY_TO_TERRAIN with
        | some t => terrainShapesGet t COBBLESTONE_SHAPES
        | none =>
          match catTerrain tags "waterway" OSM_WATERWAY_TO_TERRAIN with
          | some t => terrainShapesGet t WATER_SHAPES
          | none => GRASS_SHAPES

/-- C7: the terrain classifier is a pure function of the tag set which
checks the categories in the fixed precedence
landuse > natural > surface > highway > waterway; the first category whose
tag value is mapped wins, a present-but-unmapped (or empty) tag value falls
through to the next category, and when no category matches the result is the
generic grass candidate set. -/
theorem get_terrain_shape_spec (tags : List (String × String)) :
    (∀ t, catTerrain tags "landuse" OSM_LANDUSE_TO_TERRAIN = some t →
      get_terrain_shape tags = terrainShapesGet t GRASS_SHAPES) ∧
    (catTerrain tags "landuse" OSM_LANDUSE_TO_TERRAIN = none →
      ∀ t, catTerrain tags "natural" OSM_NATURAL_TO_TERRAIN = some t →
        get_terrain_shape tags = terrainShapesGet t GRASS_SHAPES) ∧
    (catTerrain tags "landuse" OSM_LANDUSE_TO_TERRAIN = none →
      catTerrain tags "natural" OSM_NATURAL_TO_TERRAIN = none →
      ∀ t, catTerrain tags "surface" OSM_SURFACE_TO_TERRAIN = some t →
        get_terrain_shape tags = terrainShapesGet t GRASS_SHAPES) ∧
    (catTerrain tags "landuse" OSM_LANDUSE_TO_TERRAIN = none →
      catTerrain tags "natural" OSM_NATURAL_TO_TERRAIN = none →
      catTerrain tags "surface" OSM_SURFACE_TO_TERRAIN = none →
      ∀ t, catTerrain tags "highway" OSM_HIGHWAY_TO_TERRAIN = some t →
        get_terrain_shape tags = terrainShapesGet t COBBLESTONE_SHAPES) ∧
    (catTerrain tags "landuse" OSM_LANDUSE_TO_TERRAIN = none →
      catTerrain tags "natural" OSM_NATURAL_TO_TERRAIN = none →
      catTerrain tags "surface" OSM_SURFACE_TO_TERRAIN = none →
      catTerrain tags "highway" OSM_HIGHWAY_TO_TERRAIN = none →
      ∀ t, catTerrain tags "waterway" OSM_WATERWAY_TO_TERRAIN = some t →
        get_terrain_shape tags = terrainShapesGet t WATER_SHAPES) ∧
    (catTerrain tags "landuse" OSM_LANDUSE_TO_TERRAIN = none →
      catTerrain tags "natural" OSM_NATURAL_TO_TERRAIN = none →
      catTerrain tags "surface" OSM_SURFACE_TO_TERRAIN = none →
      catTerrain tags "highway" OSM_HIGHWAY_TO_TERRAIN = none →
      catTerrain tags "waterway" OSM_WATERWAY_TO_TERRAIN = none →
      get_terrain_shape tags = GRASS_SHAPES) := by
  refine ⟨?_, ?_, ?_, ?_, ?_, ?_⟩
  · intro t h
    simp [get_terrain_shape, h]
  · intro h0 t h
    simp [get_terrain_shape, h0, h]
  · intro h0 h1 t h
    simp [get_terrain_shape, h0, h1, h]
  · intro h0 h1 h2 t h
    simp [get_terrain_shape, h0, h1, h2, h]
  · intro h0 h1 h2 h3 t h
    simp [get_terrain_shape, h0, h1, h2, h3, h]
  · intro h0 h1 h2 h3 h4
    simp [get_terrain_shape, h0, h1, h2, h3, h4]

/-- C7 witness: a landuse tag beats a waterway tag; a present-but-unmapped
landuse value falls through past natural down to an unmapped state, so a
surface tag wins; a tag set matching no category yields the grass set. -/
theorem get_terrain_shape_spec_witness :
    get_terrain_shape [("landuse", "forest"), ("waterway", "river")] =
      terrainShapesGet "grass" GRASS_SHAPES ∧
    get_terrain_shape [("landuse", "winter_sports"), ("surface", "asphalt")] =
      terrainShapesGet "cobblestone" GRASS_SHAPES ∧
    get_terrain_shape [("building", "house")] = GRASS_SHAPES := by
  refine ⟨?_, ?_, ?_⟩
  · exact (get_terrain_shape_spec _).1 "grass" (by decide)
  · exact (get_terrain_shape_spec _).2.2.1 (by decide) (by decide) "cobblestone" (by decide)
  · exact (get_terrain_shape_spec _).2.2.2.2.2 (by decide) (by decide) (by decide)
      (by decide) (by decide)

/-! ## C9: `UltimaChunk` / `UltimaMap` (osm2ultima.py lines 104-135)

The chunk dict is an association list in insertion order (Python dict);
`get_chunk` lazily appends a fresh default chunk.  In Python `get_chunk`
returns a reference and `set_terrain` mutates through it; the embedding
returns the chunk value together with the updated map, and `set_terrain`
stores the modified chunk back under its key. -/

/-- A 16×16 terrain grid default-initialized to shape 4 (grass) plus the
chunk's placed objects (osm2ultima.py lines 104-108). -/
structure UltimaChunk where
  terrain : List (List Nat)
  objects : List UltimaObject
deriving DecidableEq

/-- The default chunk: `[[4] * 16 for _ in range(16)]` and no objects. -/
def defaultChunk : UltimaChunk :=
  { terrain := List.replicate 16 (List.replicate 16 4), objects := [] }

structure UltimaMap where
  width_chunks : Nat := 16
  height_chunks : Nat := 16
  chunks : List ((Int × Int) × UltimaChunk) := []
deriving DecidableEq

/-- `get_chunk` (lines 118-122): get or lazily create the chunk at `(cx, cy)`,
returning it together with the (possibly grown) map. -/
def get_chunk (m : UltimaMap) (cx cy : Int) : UltimaChunk × UltimaMap :=
  match m.chunks.find? (fun p => p.1 == (cx, cy)) with
  | some p => (p.2, m)
  | none => (defaultChunk, { m with chunks := m.chunks ++ [((cx, cy), defaultChunk)] })

/-- Read of `chunk.terrain[ly][lx]`. -/
def terrainAt (c : UltimaChunk) (lx ly : Nat) : Nat :=
  (c.terrain.getD ly []).getD lx 0

/-- `set_terrain` (lines 124-129): `cx, cy = x // 16, y // 16`,
`lx, ly = x % 16, y % 16`, then `chunk.terrain[ly][lx] = shape` through
`get_chunk`. -/
def set_terrain (m : UltimaMap) (x y : Int) (shape : Nat) : UltimaMap :=
  let cx := x / 16
  let cy := y / 16
  let lx := (x % 16).toNat
  let ly := (y % 16).toNat
  let cm := get_chunk m cx cy
  let c := cm.1
  let c2 : UltimaChunk :=
    { c with terrain := c.terrain.set ly ((c.terrain.getD ly []).set lx shape) }
  { cm.2 with chunks := cm.2.chunks.map (fun p => if p.1 == (cx, cy) then (p.1, c2) else p) }

/-- Well-formedness carried by every chunk the code ever builds: the terrain
array is exactly 16×16 (spec §3 invariant). -/
def WFMap (m : UltimaMap) : Prop :=
  ∀ p ∈ m.chunks, p.2.terrain.length = 16 ∧ ∀ row ∈ p.2.terrain, row.length = 16

theorem find?_map_replace (l : List ((Int × Int) × UltimaChunk)) (key : Int × Int)
    (c2 : UltimaChunk) :
    (l.map (fun p => if p.1 == key then (p.1, c2) else p)).find? (fun p => p.1 == key)
      = (l.find? (fun p => p.1 == key)).map (fun p => (p.1, c2)) := by
  induction l with
  | nil => rfl
  | cons q l ih =>
    rw [List.map_cons]
    by_cases hq : (q.1 == key) = true
    · rw [if_pos hq,
        @List.find?_cons_of_pos _ (fun r => r.1 == key) (q.1, c2) _ hq,
        @List.find?_cons_of_pos _ (fun r => r.1 == key) q _ hq]
      rfl
    · rw [if_neg hq,
        @List.find?_cons_of_neg _ (fun r => r.1 == key) q _ hq,
        @List.find?_cons_of_neg _ (fun r => r.1 == key) q _ hq, ih]

theorem find?_eq_none_map_id (l : List ((Int × Int) × UltimaChunk)) (key : Int × Int)
    (h : l.find? (fun p => p.1 == key) = none) (c2 : UltimaChunk) :
    l.map (fun p => if p.1 == key then (p.1, c2) else p) = l := by
  rw [List.find?_eq_none] at h
  induction l with
  | nil => rfl
  | cons q l ih =>
    have hq : ¬ (q.1 == key) = true := h q (by simp)
    simp only [List.map_cons, if_neg hq, List.cons.injEq, true_and]
    exact ih (fun p hp => h p (by simp [hp]))

/-- C9: `get_chunk` is idempotent (a second call with the same coordinates
returns the same chunk and leaves the map unchanged), and for a well-formed
map, `set_terrain(x, y, v)` followed by reading the owning chunk
`(x div 16, y div 16)` at local offset `(x mod 16, y mod 16)` returns `v`
exactly (so mutations made through one `get_chunk` call are visible through
later calls). -/
theorem chunk_access_spec :
    (∀ (m : UltimaMap) (cx cy : Int),
      get_chunk (get_chunk m cx cy).2 cx cy =
        ((get_chunk m cx cy).1, (get_chunk m cx cy).2)) ∧
    (∀ (m : UltimaMap) (x y : Int) (v : Nat), WFMap m →
      terrainAt (get_chunk (set_terrain m x y v) (x / 16) (y / 16)).1
        ((x % 16).toNat) ((y % 16).toNat) = v) := by
  constructor
  · intro m cx cy
    rcases hf : m.chunks.find? (fun p => p.1 == (cx, cy)) with _ | p
    · simp only [get_chunk, hf]
      rw [List.find?_append, hf]
      simp [defaultChunk]
    · simp [get_chunk, hf]
  · intro m x y v hwf
    have hlx : (x % 16).toNat < 16 := by omega
    have hly : (y % 16).toNat < 16 := by omega
    have hread : ∀ c : UltimaChunk, c.terrain.length = 16 →
        (∀ row ∈ c.terrain, row.length = 16) →
        terrainAt
          { c with
            terrain := (c.terrain.set ((y % 16).toNat)
              ((c.terrain.getD ((y % 16).toNat) []).set ((x % 16).toNat) v)) }
          ((x % 16).toNat) ((y % 16).toNat) = v := by
      intro c hlen hrows
      have hrow : (c.terrain.getD ((y % 16).toNat) []).length = 16 := by
        rw [List.getD_eq_getElem?_getD, List.getElem?_eq_getElem (by omega)]
        exact hrows _ (List.getElem_mem _)
      have h1 : (c.terrain.set ((y % 16).toNat)
            ((c.terrain.getD ((y % 16).toNat) []).set ((x % 16).toNat) v)).getD
            ((y % 16).toNat) []
          = (c.terrain.getD ((y % 16).toNat) []).set ((x % 16).toNat) v := by
        rw [List.getD_eq_getElem?_getD, List.getElem?_set_self (by omega), Option.getD_some]
      show (((c.terrain.set ((y % 16).toNat)
          ((c.terrain.getD ((y % 16).toNat) []).set ((x % 16).toNat) v)).getD
          ((y % 16).toNat) []).getD ((x % 16).toNat) 0) = v
      rw [h1, List.getD_eq_getElem?_getD, List.getElem?_set_self (by omega), Option.getD_some]
    rcases hf : m.chunks.find? (fun p => p.1 == (x / 16, y / 16)) with _ | p
    · -- chunk absent: a default chunk is appended, then updated in place
      have hset : set_terrain m x y v =
          { m with
            chunks := (m.chunks ++ [((x / 16, y / 16),
              { defaultChunk with
                terrain := (defaultChunk.terrain.set ((y % 16).toNat)
                  ((defaultChunk.terrain.getD ((y % 16).toNat) []).set ((x % 16).toNat) v)) })]) } := by
        simp only [set_terrain, get_chunk, hf]
        rw [List.map_append, find?_eq_none_map_id _ _ hf]
        rw [List.map_cons, List.map_nil, if_pos (by exact beq_self_eq_true _)]
      rw [hset, get_chunk]
      rw [List.find?_append, hf, Option.none_or]
      simp only [List.find?, beq_self_eq_true]
      exact hread defaultChunk (by rw [defaultChunk]; exact List.length_replicate ..)
        (by intro row hrow
            rw [defaultChunk] at hrow
            rw [List.eq_of_mem_replicate hrow]
            exact List.length_replicate ..)
    · -- chunk present: it is replaced by the updated copy
      have hmem : p ∈ m.chunks := List.mem_of_find?_eq_some hf
      obtain ⟨hlen, hrows⟩ := hwf p hmem
      rw [set_terrain]
      simp only [get_chunk, hf]
      rw [find?_map_replace, hf]
      exact hread p.2 hlen hrows

/-- C9 witness: on the empty 16×16-chunk map, writing terrain 10 at tile
(17, 33) and reading chunk (1, 2) back at local (1, 1) — the repository's
own `test_set_terrain` scenario — returns 10; and `get_chunk` is idempotent
at (3, 3). -/
theorem chunk_access_spec_witness :
    terrainAt (get_chunk (set_terrain {} 17 33 10) 1 2).1 1 1 = 10 ∧
    get_chunk (get_chunk ({} : UltimaMap) 3 3).2 3 3 =
      ((get_chunk ({} : UltimaMap) 3 3).1, (get_chunk ({} : UltimaMap) 3 3).2) := by
  constructor
  · have h := chunk_access_spec.2 {} 17 33 10 (by intro p hp; simp at hp)
    simpa using h
  · exact chunk_access_spec.1 {} 3 3

/-! ## C3 / C4 / C10: building processing
(`MapGenerator._process_building`, `_generate_interior`, `_plan_rooms`,
osm2ultima.py lines 460-639)

The embedding takes the per-vertex transformed tile coordinates (the source
transforms each `(lon, lat)` with `osm_to_ultima` before taking min/max) and
records, for each placed object, its structural role ("wall", "door",
"roof"), tile and lift instead of the shape randomly chosen from that role's
candidate list.  The unused building-center computation, the furniture pass
and the NPC placement pass (both pure consumers of the random stream that
add extra objects but never touch floor/wall/door/roof emission) are
represented only by the `npcPlacementAttempted` flag, which mirrors the
unconditional calls at lines 522-526. -/

/-- A placed object, abstracted to its structural role. -/
structure RoleObj where
  role : String
  x : Int
  y : Int
  lift : Nat
deriving DecidableEq

/-- A planned room (`_plan_rooms` dict entries). -/
structure Room where
  type : String
  min_x : Int
  min_y : Int
  max_x : Int
  max_y : Int
deriving DecidableEq

/-- `_plan_rooms` (lines 545-639): the rooms plus the interior wall tiles
added while planning (only the house/residential branch adds any: every `x`
of the inclusive bbox row `y = mid_y` except the doorway column
`(min_x + max_x) // 2`). -/
def plan_rooms (building_type : String) (min_x min_y max_x max_y : Int) :
    List Room × List (Int × Int) :=
  let width := max_x - min_x
  let height := max_y - min_y
  if width < 6 ∨ height < 6 then
    ([⟨"main", min_x, min_y, max_x, max_y⟩], [])
  else if building_type = "house" ∨ building_type = "residential" then
    let mid_y := min_y + height / 2
    ([⟨"living", min_x, min_y, max_x, mid_y⟩,
      ⟨"bedroom", min_x, mid_y + 1, max_x, max_y⟩],
     (intRangeIncl min_x max_x).filterMap (fun x =>
       if x ≠ (min_x + max_x) / 2 then some (x, mid_y) else none))
  else if building_type = "shop" ∨ building_type = "retail" ∨
      building_type = "commercial" then
    let mid_y := min_y + (height * 2) / 3
    ([⟨"showroom", min_x, min_y, max_x, mid_y⟩,
      ⟨"storage", min_x, mid_y + 1, max_x, max_y⟩], [])
  else if building_type = "tavern" then
    let mid_x := min_x + (width * 2) / 3
    let mid_y := min_y + height / 2
    ([⟨"main", min_x, min_y, mid_x, max_y⟩,
      ⟨"kitchen", mid_x + 1, min_y, max_x, mid_y⟩,
      ⟨"bedroom", mid_x + 1, mid_y + 1, max_x, max_y⟩], [])
  else if building_type = "castle" ∨ building_type = "government" then
    let mid_x := min_x + width / 2
    ([⟨if building_type = "castle" then "throne" else "hall",
        min_x, min_y, mid_x, max_y⟩,
      ⟨if building_type = "castle" then "hall" else "office",
        mid_x + 1, min_y, max_x, max_y⟩], [])
  else
    ([⟨"main", min_x, min_y, max_x, max_y⟩], [])

/-- `_generate_interior` (lines 530-543): bail out when the interior span is
below 2 on either axis, otherwise plan rooms (the furniture pass adds no
rooms or walls). -/
def generate_interior (building_type : String) (min_x min_y max_x max_y : Int) :
    List Room × List (Int × Int) :=
  if max_x - min_x < 2 ∨ max_y - min_y < 2 then ([], [])
  else plan_rooms building_type min_x min_y max_x max_y

/-- The outcome of `_process_building` on one building way. -/
structure BuildingResult where
  min_x : Int
  min_y : Int
  max_x : Int
  max_y : Int
  floorTiles : List (Int × Int)
  objects : List RoleObj
  rooms : List Room
  interiorWallTiles : List (Int × Int)
  npcPlacementAttempted : Bool
deriving DecidableEq

/-- `min(...)` over a nonempty list (Python `min` of a generator). -/
def listMin (l : List Int) : Int :=
  match l with
  | [] => 0
  | a :: rest => rest.foldl min a

/-- `max(...)` over a nonempty list. -/
def listMax (l : List Int) : Int :=
  match l with
  | [] => 0
  | a :: rest => rest.foldl max a

/-- `_process_building` (lines 460-528) over the transformed vertex tiles:
skip when fewer than 3 vertices; otherwise take the tile bbox, paint the
floor across it, walls along the four edges, a door at
`((min_x + max_x) // 2, max_y)`, a roof across the bbox at lift 4, and —
when the clamped bbox width and height are both at least 4 — the interior
rooms and interior walls of `_generate_interior` on the bbox shrunk by 1;
NPC placement is then attempted unconditionally. -/
def process_building (tiles : List (Int × Int)) (building_type : String) :
    Option BuildingResult :=
  if tiles.length < 3 then none
  else
    let min_x := listMin (tiles.map (fun c => c.1))
    let max_x := listMax (tiles.map (fun c => c.1))
    let min_y := listMin (tiles.map (fun c => c.2))
    let max_y := listMax (tiles.map (fun c => c.2))
    let width := max 1 (max_x - min_x)
    let height := max 1 (max_y - min_y)
    let floorTiles := (intRangeIncl min_x max_x).flatMap (fun x =>
      (intRangeIncl min_y max_y).map (fun y => (x, y)))
    let wallObjs := (intRangeIncl min_x max_x).flatMap (fun x =>
        [⟨"wall", x, min_y, 0⟩, ⟨"wall", x, max_y, 0⟩]) ++
      (intRangeIncl (min_y + 1) (max_y - 1)).flatMap (fun y =>
        [⟨"wall", min_x, y, 0⟩, ⟨"wall", max_x, y, 0⟩])
    let door_x := (min_x + max_x) / 2
    let roofObjs := (intRangeIncl min_x max_x).flatMap (fun x =>
      (intRangeIncl min_y max_y).map (fun y => (⟨"roof", x, y, 4⟩ : RoleObj)))
    let interior :=
      if 4 ≤ width ∧ 4 ≤ height then
        generate_interior building_type (min_x + 1) (min_y + 1) (max_x - 1) (max_y - 1)
      else ([], [])
    some
      { min_x := min_x, min_y := min_y, max_x := max_x, max_y := max_y,
        floorTiles := floorTiles,
        objects := wallObjs ++ [⟨"door", door_x, max_y, 0⟩] ++ roofObjs ++
          interior.2.map (fun t => ⟨"wall", t.1, t.2, 0⟩),
        rooms := interior.1,
        interiorWallTiles := interior.2,
        npcPlacementAttempted := true }

theorem foldl_min_le_init (rest : List Int) : ∀ b : Int, rest.foldl min b ≤ b := by
  induction rest with
  | nil => exact fun b => le_refl b
  | cons c cs ih => exact fun b => le_trans (ih (min b c)) (min_le_left b c)

theorem init_le_foldl_max (rest : List Int) : ∀ b : Int, b ≤ rest.foldl max b := by
  induction rest with
  | nil => exact fun b => le_refl b
  | cons c cs ih => exact fun b => le_trans (le_max_left b c) (ih (max b c))

theorem listMin_le_listMax (l : List Int) (h : l ≠ []) : listMin l ≤ listMax l := by
  match l with
  | [] => exact absurd rfl h
  | a :: rest =>
    rw [listMin, listMax]
    exact le_trans (foldl_min_le_init rest a) (init_le_foldl_max rest a)

/-- C3 counterexample: a building way whose three resolved vertices all land
on tile (5, 5) has a tile bbox of clamped width and height 1 (< 3 tiles),
yet `_process_building` does not skip it: the floor tile is painted, wall,
door and roof objects are emitted, and NPC placement is attempted. -/
theorem process_building_small_bbox_cex :
    process_building [(5, 5), (5, 5), (5, 5)] "house" =
      some { min_x := 5, min_y := 5, max_x := 5, max_y := 5,
             floorTiles := [(5, 5)],
             objects := [⟨"wall", 5, 5, 0⟩, ⟨"wall", 5, 5, 0⟩,
                         ⟨"door", 5, 5, 0⟩, ⟨"roof", 5, 5, 4⟩],
             rooms := [], interiorWallTiles := [],
             npcPlacementAttempted := true } := by decide

/-- C3 (amended): building processing is never skipped because of a small
bounding box.  A building way with fewer than 3 resolved vertices is skipped
entirely; for every way with at least 3 resolved vertices — however small
its tile bbox — floor terrain is painted, wall, door and roof objects are
emitted and NPC placement is attempted; only interior room generation is
restricted, to bboxes whose clamped width and height are both at least 4. -/
theorem process_building_spec (tiles : List (Int × Int)) (bt : String) :
    (tiles.length < 3 → process_building tiles bt = none) ∧
    (3 ≤ tiles.length → ∃ r, process_building tiles bt = some r ∧
      r.floorTiles ≠ [] ∧
      (∃ o ∈ r.objects, o.role = "wall") ∧
      (∃ o ∈ r.objects, o.role = "door") ∧
      (∃ o ∈ r.objects, o.role = "roof") ∧
      r.npcPlacementAttempted = true ∧
      ((max 1 (r.max_x - r.min_x) < 4 ∨ max 1 (r.max_y - r.min_y) < 4) →
        r.rooms = [] ∧ r.interiorWallTiles = [])) := by
  constructor
  · intro h
    rw [process_building, if_pos h]
  · intro h
    have hne : tiles ≠ [] := by
      intro he
      rw [he] at h
      simp at h
    have hx := listMin_le_listMax (tiles.map (fun c => c.1)) (by simpa using hne)
    have hy := listMin_le_listMax (tiles.map (fun c => c.2)) (by simpa using hne)
    simp only [process_building, if_neg (show ¬ tiles.length < 3 by omega)]
    refine ⟨_, rfl, ?_, ?_, ?_, ?_, rfl, ?_⟩
    · refine List.ne_nil_of_mem
        (?_ : (listMin (tiles.map (fun c => c.1)), listMin (tiles.map (fun c => c.2))) ∈ _)
      simp only [List.mem_flatMap, List.mem_map, mem_intRangeIncl]
      exact ⟨listMin (tiles.map (fun c => c.1)), ⟨le_refl _, hx⟩,
        listMin (tiles.map (fun c => c.2)), ⟨le_refl _, hy⟩, rfl⟩
    · refine ⟨⟨"wall", listMin (tiles.map (fun c => c.1)),
        listMin (tiles.map (fun c => c.2)), 0⟩, ?_, rfl⟩
      simp only [List.mem_append, List.mem_flatMap, mem_intRangeIncl]
      exact Or.inl (Or.inl (Or.inl (Or.inl ⟨listMin (tiles.map (fun c => c.1)),
        ⟨le_refl _, hx⟩, by simp⟩)))
    · refine ⟨⟨"door", (listMin (tiles.map (fun c => c.1)) +
        listMax (tiles.map (fun c => c.1))) / 2,
        listMax (tiles.map (fun c => c.2)), 0⟩, ?_, rfl⟩
      simp only [List.mem_append, List.mem_flatMap, mem_intRangeIncl]
      exact Or.inl (Or.inl (Or.inr (by simp)))
    · refine ⟨⟨"roof", listMin (tiles.map (fun c => c.1)),
        listMin (tiles.map (fun c => c.2)), 4⟩, ?_, rfl⟩
      simp only [List.mem_append, List.mem_flatMap, List.mem_map, mem_intRangeIncl]
      exact Or.inl (Or.inr ⟨listMin (tiles.map (fun c => c.1)), ⟨le_refl _, hx⟩,
        listMin (tiles.map (fun c => c.2)), ⟨le_refl _, hy⟩, rfl⟩)
    · intro hsmall
      dsimp only at hsmall ⊢
      rw [if_neg (by omega)]
      exact ⟨rfl, rfl⟩

/-- C3 witness: a 1-vertex way is skipped; a 3-vertex way spanning a 2×2
bbox (width below the interior threshold) still gets floor, walls, a door, a
roof and an NPC attempt, with no rooms. -/
theorem process_building_spec_witness :
    process_building [(2, 2)] "house" = none ∧
    (∃ r, process_building [(5, 5), (6, 5), (6, 6)] "house" = some r ∧
      r.floorTiles ≠ [] ∧
      (∃ o ∈ r.objects, o.role = "wall") ∧
      (∃ o ∈ r.objects, o.role = "door") ∧
      (∃ o ∈ r.objects, o.role = "roof") ∧
      r.npcPlacementAttempted = true ∧
      ((max 1 (r.max_x - r.min_x) < 4 ∨ max 1 (r.max_y - r.min_y) < 4) →
        r.rooms = [] ∧ r.interiorWallTiles = [])) :=
  ⟨(process_building_spec [(2, 2)] "house").1 (by decide),
   (process_building_spec [(5, 5), (6, 5), (6, 6)] "house").2 (by decide)⟩

/-- C4 counterexample: a 10×10-tile shop-type footprint is split into two
rooms (showroom, storage), but no interior wall object at all is painted
along the split line — only the house/residential branch of `_plan_rooms`
adds interior walls. -/
theorem plan_rooms_shop_no_wall_cex :
    (process_building [(0, 0), (9, 0), (9, 9), (0, 9)] "shop").map
        (fun r => (r.rooms.map (fun room => room.type), r.interiorWallTiles)) =
      some (["showroom", "storage"], []) := by decide

/-- C4 (amended): only the house/residential split paints an interior wall,
along its horizontal split line with exactly the doorway column
`(min_x + max_x) div 2` left open; the shop/retail/commercial, tavern and
castle/government splits produce their rooms but paint no interior wall at
all.  A 10×10-tile house-type footprint produces exactly two rooms (living,
bedroom) split horizontally with exactly one open doorway tile in the
dividing wall. -/
theorem plan_rooms_spec :
    (∀ (bt : String) (min_x min_y max_x max_y : Int),
      bt = "house" ∨ bt = "residential" →
      6 ≤ max_x - min_x → 6 ≤ max_y - min_y →
      (plan_rooms bt min_x min_y max_x max_y).1 =
        [⟨"living", min_x, min_y, max_x, min_y + (max_y - min_y) / 2⟩,
         ⟨"bedroom", min_x, min_y + (max_y - min_y) / 2 + 1, max_x, max_y⟩] ∧
      (∀ p : Int × Int, p ∈ (plan_rooms bt min_x min_y max_x max_y).2 ↔
        (min_x ≤ p.1 ∧ p.1 ≤ max_x ∧ p.1 ≠ (min_x + max_x) / 2 ∧
         p.2 = min_y + (max_y - min_y) / 2))) ∧
    (∀ (bt : String) (min_x min_y max_x max_y : Int),
      bt = "shop" ∨ bt = "retail" ∨ bt = "commercial" ∨ bt = "tavern" ∨
      bt = "castle" ∨ bt = "government" →
      (plan_rooms bt min_x min_y max_x max_y).2 = []) ∧
    ((process_building [(0, 0), (9, 0), (9, 9), (0, 9)] "house").map
        (fun r => (r.rooms, r.interiorWallTiles)) =
      some ([⟨"living", 1, 1, 8, 4⟩, ⟨"bedroom", 1, 5, 8, 8⟩],
            [(1, 4), (2, 4), (3, 4), (5, 4), (6, 4), (7, 4), (8, 4)])) := by
  refine ⟨?_, ?_, by decide⟩
  · intro bt min_x min_y max_x max_y hbt hw hh
    rw [plan_rooms, if_neg (by omega), if_pos hbt]
    refine ⟨rfl, ?_⟩
    intro p
    simp only [List.mem_filterMap, mem_intRangeIncl, Option.ite_none_right_eq_some,
      Option.some.injEq]
    constructor
    · rintro ⟨x, hx, hne, rfl⟩
      exact ⟨hx.1, hx.2, hne, rfl⟩
    · rintro ⟨h1, h2, h3, h4⟩
      exact ⟨p.1, ⟨h1, h2⟩, h3, by rw [← h4]⟩
  · intro bt min_x min_y max_x max_y hbt
    rcases hbt with rfl | rfl | rfl | rfl | rfl | rfl <;>
      · rw [plan_rooms]
        split_ifs <;> simp_all

/-- C4 witness: the house split on interior bbox (0,0)-(9,9) gives the
living/bedroom rooms, paints a wall tile at (0, 4) of the split row (column
0 is not the doorway column 4), and the tavern split paints no interior
wall. -/
theorem plan_rooms_spec_witness :
    (plan_rooms "house" 0 0 9 9).1 =
      [⟨"living", 0, 0, 9, 4⟩, ⟨"bedroom", 0, 5, 9, 9⟩] ∧
    (((0 : Int), (4 : Int)) ∈ (plan_rooms "house" 0 0 9 9).2 ↔
      ((0 : Int) ≤ 0 ∧ (0 : Int) ≤ 9 ∧ (0 : Int) ≠ (0 + 9) / 2 ∧ (4 : Int) = 0 + (9 - 0) / 2)) ∧
    (plan_rooms "tavern" 0 0 9 9).2 = [] := by
  refine ⟨?_, ?_, ?_⟩
  · have := (plan_rooms_spec.1 "house" 0 0 9 9 (Or.inl rfl) (by decide) (by decide)).1
    simpa using this
  · have := (plan_rooms_spec.1 "house" 0 0 9 9 (Or.inl rfl) (by decide) (by decide)).2 (0, 4)
    simpa using this
  · exact plan_rooms_spec.2.1 "tavern" 0 0 9 9 (by simp)

/-- C10: for every processed building way with at least 3 resolved vertices,
the bottom-edge wall loop covers every column `x ∈ [min_x, max_x]` of row
`max_y` — including the door column `(min_x + max_x) div 2` — and a door
object is additionally emitted at that same tile, stacked on the wall rather
than replacing it. -/
theorem door_on_wall_spec (tiles : List (Int × Int)) (bt : String)
    (h : 3 ≤ tiles.length) :
    ∃ r, process_building tiles bt = some r ∧
      (∀ x, r.min_x ≤ x → x ≤ r.max_x →
        (⟨"wall", x, r.max_y, 0⟩ : RoleObj) ∈ r.objects) ∧
      (⟨"wall", (r.min_x + r.max_x) / 2, r.max_y, 0⟩ : RoleObj) ∈ r.objects ∧
      (⟨"door", (r.min_x + r.max_x) / 2, r.max_y, 0⟩ : RoleObj) ∈ r.objects := by
  have hne : tiles ≠ [] := by
    intro he
    rw [he] at h
    simp at h
  have hx := listMin_le_listMax (tiles.map (fun c => c.1)) (by simpa using hne)
  simp only [process_building, if_neg (show ¬ tiles.length < 3 by omega)]
  refine ⟨_, rfl, ?_, ?_, ?_⟩
  · intro x h1 h2
    dsimp only at h1 h2 ⊢
    simp only [List.mem_append, List.mem_flatMap, mem_intRangeIncl]
    exact Or.inl (Or.inl (Or.inl (Or.inl ⟨x, ⟨h1, h2⟩, by simp⟩)))
  · dsimp only
    simp only [List.mem_append, List.mem_flatMap, mem_intRangeIncl]
    exact Or.inl (Or.inl (Or.inl (Or.inl ⟨(listMin (tiles.map (fun c => c.1)) +
      listMax (tiles.map (fun c => c.1))) / 2, ⟨by omega, by omega⟩, by simp⟩)))
  · dsimp only
    simp only [List.mem_append, List.mem_flatMap, mem_intRangeIncl]
    exact Or.inl (Or.inl (Or.inr (by simp)))

/-- C10 witness: the 5×5 square footprint (0,0)-(4,4) receives a bottom-row
wall at every column, and both a wall and a door object at the door tile
(2, 4). -/
theorem door_on_wall_spec_witness :
    ∃ r, process_building [(0, 0), (4, 0), (4, 4), (0, 4)] "house" = some r ∧
      (∀ x, r.min_x ≤ x → x ≤ r.max_x →
        (⟨"wall", x, r.max_y, 0⟩ : RoleObj) ∈ r.objects) ∧
      (⟨"wall", (r.min_x + r.max_x) / 2, r.max_y, 0⟩ : RoleObj) ∈ r.objects ∧
      (⟨"door", (r.min_x + r.max_x) / 2, r.max_y, 0⟩ : RoleObj) ∈ r.objects :=
  door_on_wall_spec [(0, 0), (4, 0), (4, 4), (0, 4)] "house" (by decide)

/-! ## C8: `MapGenerator._create_building_relationships`
(osm2ultima.py lines 837-847)

`self.npc_profiles` is the session-wide profile list; `npc_ids` is the id
list of the NPCs just placed in one building.  Every profile whose id is in
`npc_ids` gets, for every other id of `npc_ids`, a relationship entry
sampled by `random.uniform(0.3, 0.7)` — each draw consumes one sample of the
stream `u`, and `uniform(a, b) = a + (b - a) * random()` with
`random() ∈ [0, 1)`. -/

/-- The slice of `NPCProfile` the relationship pass touches. -/
structure NPCRel where
  id : String
  relationships : List (String × ℚ)
deriving DecidableEq

/-- Python dict assignment `d[k] = v`: replace in place, else append. -/
def dictSetQ (d : List (String × ℚ)) (k : String) (v : ℚ) : List (String × ℚ) :=
  if d.any (fun p => p.1 == k) then d.map (fun p => if p.1 == k then (k, v) else p)
  else d ++ [(k, v)]

/-- Dict lookup `d.get(k)`. -/
def dictGetQ (d : List (String × ℚ)) (k : String) : Option ℚ :=
  (d.find? (fun p => p.1 == k)).map (fun p => p.2)

/-- `random.uniform(a, b) = a + (b - a) * random()`. -/
def uniform (a b r : ℚ) : ℚ := a + (b - a) * r

/-- The inner loop `for other_id in npc_ids: if other_id != profile.id:
profile.relationships[other_id] = random.uniform(0.3, 0.7)`, threading the
index of the next unconsumed sample of `u`. -/
def addRels (selfId : String) (u : Nat → ℚ) :
    List String → List (String × ℚ) → Nat → List (String × ℚ) × Nat
  | [], rels, k => (rels, k)
  | o :: os, rels, k =>
    if o ≠ selfId then
      addRels selfId u os (dictSetQ rels o (uniform 0.3 0.7 (u k))) (k + 1)
    else
      addRels selfId u os rels k

/-- The outer loop over `self.npc_profiles`. -/
def relStep (npc_ids : List String) (u : Nat → ℚ) :
    List NPCRel → Nat → List NPCRel
  | [], _ => []
  | p :: ps, k =>
    if p.id ∈ npc_ids then
      let r := addRels p.id u npc_ids p.relationships k
      { p with relationships := r.1 } :: relStep npc_ids u ps r.2
    else
      p :: relStep npc_ids u ps k

/-- `_create_building_relationships`: no-op below 2 occupants, otherwise the
double loop. -/
def create_building_relationships (profiles : List NPCRel) (npc_ids : List String)
    (u : Nat → ℚ) : List NPCRel :=
  if npc_ids.length < 2 then profiles
  else relStep npc_ids u profiles 0

theorem find?_set_map_self (d : List (String × ℚ)) (k : String) (v : ℚ)
    (hany : ∃ q ∈ d, (q.1 == k) = true) :
    List.find? (fun p => p.1 == k) (d.map (fun p => if p.1 == k then (k, v) else p))
      = some (k, v) := by
  induction d with
  | nil => obtain ⟨q, hq, _⟩ := hany; cases hq
  | cons a d ih =>
    rw [List.map_cons]
    by_cases ha : (a.1 == k) = true
    · rw [if_pos ha, @List.find?_cons_of_pos _ (fun p => p.1 == k) (k, v) _ (by simp)]
    · rw [if_neg ha, @List.find?_cons_of_neg _ (fun p => p.1 == k) a _ ha]
      obtain ⟨q, hq, hqk⟩ := hany
      rcases List.mem_cons.mp hq with rfl | hq
      · exact absurd hqk ha
      · exact ih ⟨q, hq, hqk⟩

theorem find?_set_map_ne (d : List (String × ℚ)) (k b : String) (v : ℚ)
    (hne : b ≠ k) :
    List.find? (fun p => p.1 == b) (d.map (fun p => if p.1 == k then (k, v) else p))
      = List.find? (fun p => p.1 == b) d := by
  induction d with
  | nil => rfl
  | cons a d ih =>
    rw [List.map_cons]
    by_cases ha : (a.1 == k) = true
    · have hak : a.1 = k := by simpa using ha
      rw [if_pos ha,
        @List.find?_cons_of_neg _ (fun p => p.1 == b) (k, v) _
          (by simp only [beq_iff_eq]; exact fun h => hne h.symm),
        @List.find?_cons_of_neg _ (fun p => p.1 == b) a _
          (by simp only [beq_iff_eq, hak]; exact fun h => hne h.symm)]
      exact ih
    · rw [if_neg ha]
      by_cases hab : (a.1 == b) = true
      · rw [@List.find?_cons_of_pos _ (fun p => p.1 == b) a _ hab,
          @List.find?_cons_of_pos _ (fun p => p.1 == b) a _ hab]
      · rw [@List.find?_cons_of_neg _ (fun p => p.1 == b) a _ hab,
          @List.find?_cons_of_neg _ (fun p => p.1 == b) a _ hab]
        exact ih

theorem dictGetQ_dictSetQ_self (d : List (String × ℚ)) (k : String) (v : ℚ) :
    dictGetQ (dictSetQ d k v) k = some v := by
  rw [dictSetQ]
  by_cases hany : (d.any (fun p => p.1 == k)) = true
  · rw [if_pos hany, dictGetQ, find?_set_map_self d k v (List.any_eq_true.mp hany)]
    rfl
  · rw [if_neg hany, dictGetQ, List.find?_append]
    have hnone : d.find? (fun p => p.1 == k) = none := by
      rw [List.find?_eq_none]
      intro p hp hpk
      exact hany (List.any_eq_true.mpr ⟨p, hp, hpk⟩)
    rw [hnone, Option.none_or,
      @List.find?_cons_of_pos _ (fun p => p.1 == k) (k, v) _ (by simp)]
    rfl

theorem dictGetQ_dictSetQ_ne (d : List (String × ℚ)) (k b : String) (v : ℚ)
    (hne : b ≠ k) : dictGetQ (dictSetQ d k v) b = dictGetQ d b := by
  rw [dictSetQ]
  by_cases hany : (d.any (fun p => p.1 == k)) = true
  · rw [if_pos hany, dictGetQ, dictGetQ, find?_set_map_ne d k b v hne]
  · rw [if_neg hany, dictGetQ, dictGetQ, List.find?_append,
      @List.find?_cons_of_neg _ (fun p => p.1 == b) (k, v) _
        (by simp only [beq_iff_eq]; exact fun h => hne h.symm),
      List.find?_nil, Option.or_none]

theorem addRels_preserve (selfId : String) (u : Nat → ℚ) (others : List String)
    (b : String) (hb : b = selfId ∨ b ∉ others) :
    ∀ (rels : List (String × ℚ)) (k : Nat),
      dictGetQ (addRels selfId u others rels k).1 b = dictGetQ rels b := by
  induction others with
  | nil => intro rels k; rfl
  | cons o os ih =>
    intro rels k
    have hbo : b = selfId ∨ b ∉ os := by
      rcases hb with h | h
      · exact Or.inl h
      · exact Or.inr (fun hmem => h (List.mem_cons_of_mem o hmem))
    rw [addRels]
    by_cases ho : o ≠ selfId
    · rw [if_pos ho, ih hbo]
      apply dictGetQ_dictSetQ_ne
      rcases hb with rfl | h
      · exact fun he => ho he.symm
      · exact fun he => h (he ▸ List.mem_cons_self o os)
    · rw [if_neg ho]
      exact ih hbo rels k

theorem addRels_mem (selfId : String) (u : Nat → ℚ) (others : List String)
    (b : String) (hbs : b ≠ selfId) (hb : b ∈ others) :
    ∀ (rels : List (String × ℚ)) (k : Nat),
      ∃ j, dictGetQ (addRels selfId u others rels k).1 b =
        some (uniform 0.3 0.7 (u j)) := by
  induction others with
  | nil => cases hb
  | cons o os ih =>
    intro rels k
    by_cases hbo : b ∈ os
    · rw [addRels]
      by_cases ho : o ≠ selfId
      · rw [if_pos ho]
        exact ih hbo _ _
      · rw [if_neg ho]
        exact ih hbo rels k
    · have hob : o = b := by
        rcases List.mem_cons.mp hb with h | h
        · exact h.symm
        · exact absurd h hbo
      subst hob
      rw [addRels, if_pos hbs]
      refine ⟨k, ?_⟩
      rw [addRels_preserve selfId u os o (Or.inr hbo)]
      exact dictGetQ_dictSetQ_self rels o (uniform 0.3 0.7 (u k))

theorem uniform_mem_Icc (u : Nat → ℚ) (hu : ∀ n, 0 ≤ u n ∧ u n < 1) (j : Nat) :
    3/10 ≤ uniform 0.3 0.7 (u j) ∧ uniform 0.3 0.7 (u j) ≤ 7/10 := by
  obtain ⟨h0, h1⟩ := hu j
  rw [uniform]
  constructor
  · nlinarith
  · nlinarith

/-- The per-profile relation the relationship pass establishes. -/
def RelOutcome (npc_ids : List String) (u : Nat → ℚ) (p q : NPCRel) : Prop :=
  q.id = p.id ∧
  (p.id ∈ npc_ids → ∀ b ∈ npc_ids, b ≠ p.id →
    ∃ j, dictGetQ q.relationships b = some (uniform 0.3 0.7 (u j))) ∧
  (∀ b, b ∉ npc_ids → dictGetQ q.relationships b = dictGetQ p.relationships b) ∧
  (p.id ∉ npc_ids → q = p)

theorem relStep_spec (npc_ids : List String) (u : Nat → ℚ) :
    ∀ (ps : List NPCRel) (k : Nat),
      List.Forall₂ (RelOutcome npc_ids u) ps (relStep npc_ids u ps k) := by
  intro ps
  induction ps with
  | nil => intro k; exact List.Forall₂.nil
  | cons p ps ih =>
    intro k
    rw [relStep]
    by_cases hp : p.id ∈ npc_ids
    · rw [if_pos hp]
      refine List.Forall₂.cons ⟨rfl, ?_, ?_, ?_⟩ (ih _)
      · intro _ b hb hbp
        exact addRels_mem p.id u npc_ids b hbp hb p.relationships k
      · intro b hb
        exact addRels_preserve p.id u npc_ids b (Or.inr hb) p.relationships k
      · intro hnot
        exact absurd hp hnot
    · rw [if_neg hp]
      exact List.Forall₂.cons ⟨rfl, fun h => absurd h hp, fun b _ => rfl, fun _ => rfl⟩
        (ih k)

/-- C8: once a building's occupant id list (length ≥ 2) is finalized, every
session profile belonging to that building gains, for every other
co-occupant id, a directed relationship entry equal to some independently
drawn `uniform(0.3, 0.7)` sample, hence with strength in [0.3, 0.7]; lookups
of ids outside the building are untouched, and profiles of other buildings
are left entirely unchanged — so no relationship entry ever spans two
buildings.  A->B and B->A are separate draws and may differ: with the sample
stream 0, 1/2, ... the pair A->B = 0.3 and B->A = 0.5. -/
theorem create_building_relationships_spec :
    (∀ (profiles : List NPCRel) (npc_ids : List String) (u : Nat → ℚ),
      (∀ n, 0 ≤ u n ∧ u n < 1) → 2 ≤ npc_ids.length →
      List.Forall₂ (fun p q =>
        q.id = p.id ∧
        (p.id ∈ npc_ids → ∀ b ∈ npc_ids, b ≠ p.id →
          ∃ v, dictGetQ q.relationships b = some v ∧ 3/10 ≤ v ∧ v ≤ 7/10) ∧
        (∀ b, b ∉ npc_ids → dictGetQ q.relationships b = dictGetQ p.relationships b) ∧
        (p.id ∉ npc_ids → q = p))
        profiles (create_building_relationships profiles npc_ids u)) ∧
    (∃ va vb, va ≠ vb ∧
      create_building_relationships [⟨"a", []⟩, ⟨"b", []⟩] ["a", "b"]
          (fun n => if n = 0 then 0 else 1/2) =
        [⟨"a", [("b", va)]⟩, ⟨"b", [("a", vb)]⟩]) := by
  constructor
  · intro profiles npc_ids u hu h2
    rw [create_building_relationships, if_neg (by omega)]
    refine (relStep_spec npc_ids u profiles 0).imp ?_
    intro p q hpq
    obtain ⟨hid, hmem, hout, hskip⟩ := hpq
    refine ⟨hid, ?_, hout, hskip⟩
    intro hp b hb hbp
    obtain ⟨j, hj⟩ := hmem hp b hb hbp
    exact ⟨uniform 0.3 0.7 (u j), hj, uniform_mem_Icc u hu j⟩
  · refine ⟨3/10, 1/2, by norm_num, ?_⟩
    rw [create_building_relationships, if_neg (by decide)]
    simp [relStep, addRels, dictSetQ, uniform]
    norm_num

/-- C8 witness: two profiles in one building with ids "a" and "b" and the
all-zero sample stream; the theorem instantiates to a `Forall₂` over the
concrete run. -/
theorem create_building_relationships_spec_witness :
    List.Forall₂ (fun p q =>
      q.id = p.id ∧
      (p.id ∈ ["a", "b"] → ∀ b ∈ ["a", "b"], b ≠ p.id →
        ∃ v, dictGetQ q.relationships b = some v ∧ 3/10 ≤ v ∧ v ≤ 7/10) ∧
      (∀ b, b ∉ ["a", "b"] → dictGetQ q.relationships b = dictGetQ p.relationships b) ∧
      (p.id ∉ ["a", "b"] → q = p))
      [⟨"a", []⟩, ⟨"b", []⟩]
      (create_building_relationships [⟨"a", []⟩, ⟨"b", []⟩] ["a", "b"] (fun _ => 0)) :=
  create_building_relationships_spec.1 [⟨"a", []⟩, ⟨"b", []⟩] ["a", "b"] (fun _ => 0)
    (fun _ => by norm_num) (by decide)

end Osm2Ultima
